import Mathlib

/-!
# translator-cli: a verification development of `main.go`

The program parses four command-line flags, reads or writes a two-key JSON
configuration file, issues one HTTP GET and flattens the nested JSON array of
the answer into a list of strings.

Modelling conventions.

* A Go `string` is a sequence of bytes (`GoString`), valid UTF-8 or not; the
  string constants of the source are written `bytes "..."`.  A Go `error` is
  the string its `Error()` method returns; a Go `(value, error)` result is an
  `Except GoString value`.
* The standard library is the environment.  A byte sequence handed to
  `encoding/json` is represented by what the decoder's syntax layer makes of
  it (`Document`): a syntax error, or the JSON value it denotes.  How such a
  value is stored into a Go variable of a given static type (`[]interface{}`,
  `map[string]string`) is spelled out in `unmarshalSlice` and
  `unmarshalStringMap`, after the rules of `json.Unmarshal`, the range check on
  numbers included.  What the encoder does to a string that is not valid UTF-8
  is spelled out in `toValidUTF8`.
* The network is a function from the requested URL to the outcome of
  `http.Get`; the file system is the state of `config.json`.
* Package-level variables and standard output are fields of `State`.
-/

namespace Translator

/-! ## Go strings -/

/-- A Go `string`: a sequence of bytes, each below 256. -/
abbrev GoString := List Nat

/-- The UTF-8 bytes of a character. -/
def utf8Bytes (c : Char) : List Nat :=
  let n := c.toNat
  if n < 0x80 then [n]
  else if n < 0x800 then [0xC0 + n / 64, 0x80 + n % 64]
  else if n < 0x10000 then [0xE0 + n / 4096, 0x80 + n / 64 % 64, 0x80 + n % 64]
  else [0xF0 + n / 262144, 0x80 + n / 4096 % 64, 0x80 + n / 64 % 64, 0x80 + n % 64]

/-- A string constant as the Go compiler stores it: the UTF-8 bytes of the
text. -/
def bytes (s : String) : GoString :=
  s.toList.flatMap utf8Bytes

/-- Whether a byte is a UTF-8 continuation byte (`locb ≤ b ≤ hicb`). -/
def isContinuation (b : Nat) : Bool :=
  0x80 ≤ b && b ≤ 0xBF

/-- The function `utf8.DecodeRuneInString` on the head of a string, as far as
the width goes: `some w` when the string starts with a well-formed encoding of
`w` bytes, `none` when the answer is `(RuneError, 1)`, a byte that starts no
well-formed encoding.  The second byte has its own accepted range after the
lead bytes `E0`, `ED`, `F0` and `F4`. -/
def runeWidth : GoString → Option Nat
  | [] => none
  | b0 :: rest =>
    if b0 < 0x80 then some 1
    else if b0 < 0xC2 then none
    else if b0 < 0xE0 then
      match rest with
      | b1 :: _ => if isContinuation b1 then some 2 else none
      | _ => none
    else if b0 < 0xF0 then
      match rest with
      | b1 :: b2 :: _ =>
        if (if b0 = 0xE0 then 0xA0 else 0x80) ≤ b1 ∧ b1 ≤ (if b0 = 0xED then 0x9F else 0xBF)
            ∧ isContinuation b2 then some 3
        else none
      | _ => none
    else if b0 < 0xF5 then
      match rest with
      | b1 :: b2 :: b3 :: _ =>
        if (if b0 = 0xF0 then 0x90 else 0x80) ≤ b1 ∧ b1 ≤ (if b0 = 0xF4 then 0x8F else 0xBF)
            ∧ isContinuation b2 ∧ isContinuation b3 then some 4
        else none
      | _ => none
    else none

/-- The loop of `utf8.ValidString`, with the number of steps left. -/
def validStringFrom : Nat → GoString → Bool
  | _, [] => true
  | 0, _ :: _ => false
  | fuel + 1, b :: rest =>
    match runeWidth (b :: rest) with
    | none => false
    | some w => validStringFrom fuel ((b :: rest).drop w)

/-- The function `utf8.ValidString`: every step consumes a byte, so the length
of the string is steps enough. -/
def ValidString (s : GoString) : Bool :=
  validStringFrom s.length s

/-- The string a JSON string literal written by `json.Encoder` denotes, with
the number of steps left: the encoder walks the string with
`utf8.DecodeRuneInString` and writes U+FFFD for every byte that gives
`(RuneError, 1)`; everything else it writes, escaped or not, reads back as
itself. -/
def toValidUTF8From : Nat → GoString → GoString
  | _, [] => []
  | 0, _ :: _ => []
  | fuel + 1, b :: rest =>
    match runeWidth (b :: rest) with
    | none => 0xEF :: 0xBF :: 0xBD :: toValidUTF8From fuel rest
    | some w => (b :: rest).take w ++ toValidUTF8From fuel ((b :: rest).drop w)

/-- The string that the JSON text written for the Go string `s` denotes. -/
def toValidUTF8 (s : GoString) : GoString :=
  toValidUTF8From s.length s

/-! ## JSON values -/

/-- JSON values as the decoder sees them: `null`, a boolean, a number (its
literal, and whether `strconv.ParseFloat` reports the literal as out of the
range of `float64`), a string, an array, an object (the member list, in
document order). -/
inductive Json where
  | null
  | bool (b : Bool)
  | num (lit : GoString) (overflow : Bool)
  | str (s : GoString)
  | arr (xs : List Json)
  | obj (kvs : List (GoString × Json))

/-- What a byte sequence is to the JSON decoder: a syntax error (with the
decoder's message) or the value it denotes. -/
inductive Document where
  | invalid (err : GoString)
  | value (j : Json)

/-- The word `encoding/json` uses for a value in an `UnmarshalTypeError`. -/
def Json.kind : Json → String
  | .null => "null"
  | .bool _ => "bool"
  | .num _ _ => "number"
  | .str _ => "string"
  | .arr _ => "array"
  | .obj _ => "object"

mutual
/-- Storing a JSON value into an `interface{}`: the earliest
`UnmarshalTypeError` the decoder records, which is the first number, in
document order, whose literal does not fit a `float64`. -/
def Json.rangeError : Json → Option GoString
  | .num lit true =>
      some (bytes "json: cannot unmarshal number " ++ lit
        ++ bytes " into Go value of type float64")
  | .arr xs => rangeErrorList xs
  | .obj kvs => rangeErrorMembers kvs
  | _ => none
/-- The earliest range error among the elements of an array. -/
def rangeErrorList : List Json → Option GoString
  | [] => none
  | x :: xs =>
    match x.rangeError with
    | some err => some err
    | none => rangeErrorList xs
/-- The earliest range error among the members of an object. -/
def rangeErrorMembers : List (GoString × Json) → Option GoString
  | [] => none
  | (_, x) :: kvs =>
    match x.rangeError with
    | some err => some err
    | none => rangeErrorMembers kvs
end

/-- Storing a JSON value into a variable `var result []interface{}`
(`json.Unmarshal(body, &result)`): an array is stored element by element, each
element into an `interface{}`, and the call returns the earliest error recorded
on the way; JSON `null` sets the slice to `nil` without an error; every other
value is an `UnmarshalTypeError`. -/
def unmarshalSlice : Json → Except GoString (List Json)
  | .arr xs =>
    match rangeErrorList xs with
    | some err => .error err
    | none => .ok xs
  | .null => .ok []
  | j => .error (bytes "json: cannot unmarshal " ++ bytes j.kind
      ++ bytes " into Go value of type []interface {}")

/-- A Go `map[string]string` as an association list; the binding nearest the
head is the current one. -/
abbrev StringMap := List (GoString × GoString)

/-- Indexing `m[key]`: the zero value `""` when the key is absent. -/
def StringMap.index (m : StringMap) (key : GoString) : GoString :=
  (m.lookup key).getD (bytes "")

/-- Storing the members of a JSON object into a `map[string]string`, in
document order.  A string member is stored; a `null` member stores the zero
value; any other member is an `UnmarshalTypeError`, and the earliest one is what
the decoder returns. -/
def unmarshalMembers : List (GoString × Json) → StringMap → Except GoString StringMap
  | [], m => .ok m
  | (k, .str s) :: rest, m => unmarshalMembers rest ((k, s) :: m)
  | (k, .null) :: rest, m => unmarshalMembers rest ((k, bytes "") :: m)
  | (_, j) :: _, _ =>
      .error (bytes "json: cannot unmarshal " ++ bytes j.kind
        ++ bytes " into Go value of type string")

/-- Storing a JSON value into `config := map[string]string{}`
(`json.NewDecoder(file).Decode(&config)`): an object is stored member by
member, JSON `null` leaves no binding and is no error, every other value is an
`UnmarshalTypeError`. -/
def unmarshalStringMap : Json → Except GoString StringMap
  | .obj kvs => unmarshalMembers kvs []
  | .null => .ok []
  | j => .error (bytes "json: cannot unmarshal " ++ bytes j.kind
      ++ bytes " into Go value of type map[string]string")

/-! ## `net/url` -/

/-- The upper-case hexadecimal digit of a nibble (`"0123456789ABCDEF"[n]`). -/
def upperhex (n : Nat) : Nat :=
  if n < 10 then 48 + n else 55 + n

/-- The function `shouldEscape(c, encodeQueryComponent)` of `net/url`: only
the unreserved bytes `A-Z a-z 0-9 - _ . ~` are left alone. -/
def shouldEscape (b : Nat) : Bool :=
  !((97 ≤ b && b ≤ 122) || (65 ≤ b && b ≤ 90) || (48 ≤ b && b ≤ 57)
    || b == 45 || b == 95 || b == 46 || b == 126)

/-- One byte of `url.QueryEscape`: a space becomes `+`, a byte that must be
escaped becomes `%XX`, any other byte stands for itself. -/
def escapeByte (b : Nat) : GoString :=
  if b == 32 then [43]
  else if shouldEscape b then [37, upperhex (b / 16), upperhex (b % 16)]
  else [b]

/-- The function `url.QueryEscape`. -/
def QueryEscape (s : GoString) : GoString :=
  s.flatMap escapeByte

/-! ## The translation client -/

/-- The constant `baseURL` with its two `%s` verbs filled in:
`fmt.Sprintf(baseURL, sourceLang, targetLang)`. -/
def baseURL (sourceLang targetLang : GoString) : GoString :=
  bytes "https://translate.googleapis.com/translate_a/single?client=gtx&dt=t&sl=" ++ sourceLang
    ++ bytes "&tl=" ++ targetLang ++ bytes "&q="

/-- The constant `defaultLang`. -/
def defaultLang : GoString := bytes "en"

/-- What `http.Get` hands back on success, as far as `translate` looks at it:
the status code and the outcome of `io.ReadAll(response.Body)`. -/
structure Response where
  StatusCode : Int
  Body : Except GoString Document

/-- The URL of lines 82-83: `fmt.Sprintf(baseURL, sourceLang, targetLang) + query`. -/
def translateURL (text sourceLang targetLang : GoString) : GoString :=
  let query := QueryEscape text
  baseURL sourceLang targetLang ++ query

/-- The body of the loop of lines 108-116. -/
def appendSentence (translations : List GoString) (sentence : Json) : List GoString :=
  match sentence with
  | .arr firstSentence =>
      if firstSentence.length > 0 then
        match firstSentence.head? with
        | some (.str translatedText) => translations ++ [translatedText]
        | _ => translations
      else translations
  | _ => translations

/-- The extraction pass of lines 104-118 over the decoded `result`. -/
def extract (result : List Json) : List GoString :=
  let translations : List GoString := []
  if result.length > 0 then
    match result.head? with
    | some (.arr sentences) => sentences.foldl appendSentence translations
    | _ => translations
  else translations

/-- The function `translate`; `get` is the network, giving the outcome of
`http.Get` for a URL. -/
def translate (get : GoString → Except GoString Response)
    (text sourceLang targetLang : GoString) : Except GoString (List GoString) :=
  let translateURL := translateURL text sourceLang targetLang
  match get translateURL with
  | .error err => .error (bytes "HTTP request error: " ++ err)
  | .ok response =>
    if response.StatusCode ≠ 200 then
      .error (bytes "unexpected status code: " ++ bytes (toString response.StatusCode))
    else
      match response.Body with
      | .error err => .error (bytes "reading response body error: " ++ err)
      | .ok (.invalid err) => .error (bytes "JSON unmarshal error: " ++ err)
      | .ok (.value body) =>
        match unmarshalSlice body with
        | .error err => .error (bytes "JSON unmarshal error: " ++ err)
        | .ok result =>
          let translations := extract result
          if translations.length = 0 then .error (bytes "translation not found")
          else .ok translations

/-! ## The configuration store -/

/-- The constant `configFile` names the one file the program reads and writes;
its state is the field `config` of `State`. -/
def configFile : GoString := bytes "config.json"

/-- The package-level variables of the program, the positional arguments left
by `flag.Parse`, the state of `config.json` (`none` when `os.Open` fails) and
the lines written to standard output. -/
structure State where
  sourceLang : GoString
  targetLang : GoString
  reverse : Bool
  setLang : Bool
  args : List GoString
  config : Option Document
  stdout : List GoString

/-- What the file system does with the write of `saveConfig`: `os.Create`
fails and the file is untouched; the file is created but `Encode` fails,
leaving some contents behind; or the write goes through. -/
inductive SaveOutcome where
  | createError (err : GoString)
  | encodeError (err : GoString) (left : Document)
  | saved

/-- The JSON value denoted by what `json.Encoder` writes for the map literal
of lines 44-47: one object, the keys in sorted order, each value the string
its literal reads back as (`toValidUTF8`). -/
def configObject (source target : GoString) : Json :=
  .obj [(bytes "sourceLang", .str (toValidUTF8 source)),
        (bytes "targetLang", .str (toValidUTF8 target))]

/-- The function `saveConfig`. -/
def saveConfig (source target : GoString) (fs : SaveOutcome) (st : State) : State :=
  let config := configObject source target
  match fs with
  | .createError err =>
      { st with stdout := st.stdout ++ [bytes "Error creating config file: " ++ err] }
  | .encodeError err left =>
      { st with config := some left,
                stdout := st.stdout ++ [bytes "Error saving config: " ++ err] }
  | .saved => { st with config := some (.value config) }

/-- The function `loadConfig`. -/
def loadConfig (st : State) : State :=
  match st.config with
  | none => { st with sourceLang := defaultLang, targetLang := defaultLang }
  | some (.invalid err) =>
      { st with stdout := st.stdout ++ [bytes "Error reading config: " ++ err],
                sourceLang := defaultLang, targetLang := defaultLang }
  | some (.value file) =>
    match unmarshalStringMap file with
    | .error err =>
        { st with stdout := st.stdout ++ [bytes "Error reading config: " ++ err],
                  sourceLang := defaultLang, targetLang := defaultLang }
    | .ok config =>
        { st with sourceLang := config.index (bytes "sourceLang"),
                  targetLang := config.index (bytes "targetLang") }

/-! ## The driver -/

/-- The command line as a successful `flag.Parse` reads it: the values of `-s`
and `-t` (the empty string when the flag is omitted), whether `-reverse` and
`-set` are given, and the positional arguments. -/
structure CommandLine where
  s : GoString
  t : GoString
  reverse : Bool
  set : Bool
  args : List GoString

/-- The function `init`; `file` is the state of `config.json` at startup and
`fs` what the file system does if the configuration is written. -/
def init (cl : CommandLine) (file : Option Document) (fs : SaveOutcome) : State :=
  let st : State :=
    { sourceLang := cl.s, targetLang := cl.t, reverse := cl.reverse, setLang := cl.set,
      args := cl.args, config := file, stdout := [] }
  let st := if st.setLang then saveConfig st.sourceLang st.targetLang fs st else st
  if st.sourceLang = bytes "" ∨ st.targetLang = bytes "" then loadConfig st else st

/-- Lines 138-144 of `main`: what is printed for the outcome of `translate`. -/
def report (st : State) (outcome : Except GoString (List GoString)) : State :=
  match outcome with
  | .error err => { st with stdout := st.stdout ++ [bytes "Error: " ++ err] }
  | .ok translatedTexts =>
      { st with stdout := st.stdout ++ translatedTexts.map (fun translatedText =>
          bytes "- " ++ translatedText) }

/-- The function `main`, over the callee `translate` (instantiated with
`Translator.translate get` in `run`). -/
def main (translate : GoString → GoString → GoString → Except GoString (List GoString))
    (st : State) : State :=
  if st.args.length < 1 then
    { st with stdout := st.stdout ++ [bytes "Please provide text to translate."] }
  else
    let text := (bytes " ").intercalate st.args
    let st := if st.reverse then
        { st with sourceLang := st.targetLang, targetLang := st.sourceLang }
      else st
    report st (translate text st.sourceLang st.targetLang)

/-- One run of the program: `init`, then `main`. -/
def run (get : GoString → Except GoString Response) (cl : CommandLine)
    (file : Option Document) (fs : SaveOutcome) : State :=
  main (translate get) (init cl file fs)

/-! ## Specification-side definitions -/

/-- The URL the specification documents: the template with the
percent-encoded source, target and text. -/
def documentedURL (text sourceLang targetLang : GoString) : GoString :=
  bytes "https://translate.googleapis.com/translate_a/single?client=gtx&dt=t&sl="
    ++ QueryEscape sourceLang ++ bytes "&tl=" ++ QueryEscape targetLang ++ bytes "&q="
    ++ QueryEscape text

/-! ## Lemmas on the extraction pass -/

/-- A body that is a top-level array but holds a number out of the range of
`float64` does not decode: `json.Unmarshal` returns the range error and
`translate` answers "JSON unmarshal error", as on the body
`[[["hola"]],1e999]`. -/
theorem translate_overflow_body :
    translate (fun _ => .ok ⟨200, .ok (.value (.arr
        [.arr [.arr [.str (bytes "hola")]], .num (bytes "1e999") true]))⟩)
      (bytes "hello") (bytes "en") (bytes "es")
    = .error (bytes ("JSON unmarshal error: json: cannot unmarshal number 1e999 "
        ++ "into Go value of type float64")) := by
  rfl

/-! ## Lemmas on error messages -/

theorem append_ne_of_head (p q e f : GoString) (a b : Nat)
    (hp : p.head? = some a) (hq : q.head? = some b) (hab : a ≠ b) : p ++ e ≠ q ++ f := by
  intro h
  cases p with
  | nil => simp at hp
  | cons x xs =>
    cases q with
    | nil => simp at hq
    | cons y ys =>
      simp only [List.head?_cons, Option.some.injEq] at hp hq
      simp only [List.cons_append, List.cons.injEq] at h
      exact hab (hp ▸ hq ▸ h.1)

theorem ne_of_head (p q e : GoString) (a b : Nat)
    (hp : p.head? = some a) (hq : q.head? = some b) (hab : a ≠ b) : p ++ e ≠ q := by
  have h := append_ne_of_head p q e [] a b hp hq hab
  simpa using h

/-! ## Lemmas on the strings the encoder writes -/

theorem toValidUTF8From_of_valid (fuel : Nat) (s : GoString)
    (h : validStringFrom fuel s = true) : toValidUTF8From fuel s = s := by
  induction fuel generalizing s with
  | zero =>
    cases s with
    | nil => rfl
    | cons b rest => simp [validStringFrom] at h
  | succ n ih =>
    cases s with
    | nil => rfl
    | cons b rest =>
      simp only [validStringFrom] at h
      simp only [toValidUTF8From]
      cases hw : runeWidth (b :: rest) with
      | none => simp [hw] at h
      | some w =>
        simp only [hw] at h
        simp only [ih _ h]
        exact List.take_append_drop w (b :: rest)

theorem toValidUTF8_of_valid (s : GoString) (h : ValidString s = true) : toValidUTF8 s = s :=
  toValidUTF8From_of_valid s.length s h

theorem char_toNat_valid (c : Char) :
    c.toNat < 0xD800 ∨ (0xDFFF < c.toNat ∧ c.toNat < 0x110000) := by
  have h := c.valid
  simp only [UInt32.isValidChar, Nat.isValidChar] at h
  exact h

theorem utf8Bytes_length_pos (c : Char) : 0 < (utf8Bytes c).length := by
  simp only [utf8Bytes]
  split_ifs <;> simp

theorem runeWidth_utf8Bytes (c : Char) (rest : GoString) :
    runeWidth (utf8Bytes c ++ rest) = some (utf8Bytes c).length := by
  have hv := char_toNat_valid c
  simp only [utf8Bytes]
  generalize c.toNat = n at hv
  by_cases h1 : n < 0x80
  · simp [h1, runeWidth]
  · by_cases h2 : n < 0x800
    · have e1 : ¬ (0xC0 + n / 64 < 0x80) := by omega
      have e2 : ¬ (0xC0 + n / 64 < 0xC2) := by omega
      have e3 : 0xC0 + n / 64 < 0xE0 := by omega
      have e4 : isContinuation (0x80 + n % 64) = true := by
        simp only [isContinuation, Bool.and_eq_true, decide_eq_true_eq]; omega
      simp [h1, h2, runeWidth, e1, e2, e3, e4]
    · by_cases h3 : n < 0x10000
      · have e1 : ¬ (0xE0 + n / 4096 < 0x80) := by omega
        have e2 : ¬ (0xE0 + n / 4096 < 0xC2) := by omega
        have e3 : ¬ (0xE0 + n / 4096 < 0xE0) := by omega
        have e4 : 0xE0 + n / 4096 < 0xF0 := by omega
        have e5 : isContinuation (0x80 + n % 64) = true := by
          simp only [isContinuation, Bool.and_eq_true, decide_eq_true_eq]; omega
        have e7 : 0x80 + n / 64 % 64 ≤ (if 0xE0 + n / 4096 = 0xED then 0x9F else 0xBF) := by
          split_ifs <;> omega
        simp [h1, h2, h3, runeWidth, e1, e2, e3, e4, e5, e7]
        split_ifs <;> omega
      · have e1 : ¬ (0xF0 + n / 262144 < 0x80) := by omega
        have e2 : ¬ (0xF0 + n / 262144 < 0xC2) := by omega
        have e3 : ¬ (0xF0 + n / 262144 < 0xE0) := by omega
        have e4 : ¬ (0xF0 + n / 262144 < 0xF0) := by omega
        have e5 : 0xF0 + n / 262144 < 0xF5 := by omega
        have e6 : isContinuation (0x80 + n % 64) = true := by
          simp only [isContinuation, Bool.and_eq_true, decide_eq_true_eq]; omega
        have e7 : isContinuation (0x80 + n / 64 % 64) = true := by
          simp only [isContinuation, Bool.and_eq_true, decide_eq_true_eq]; omega
        have e9 : 0x80 + n / 4096 % 64 ≤ (if 0xF0 + n / 262144 = 0xF4 then 0x8F else 0xBF) := by
          split_ifs <;> omega
        simp [h1, h2, h3, runeWidth, e1, e2, e3, e4, e5, e6, e7, e9]
        split_ifs <;> omega

theorem validStringFrom_flatMap (cs : List Char) (fuel : Nat) (h : cs.length ≤ fuel) :
    validStringFrom fuel (cs.flatMap utf8Bytes) = true := by
  induction cs generalizing fuel with
  | nil => cases fuel <;> simp [validStringFrom]
  | cons c cs ih =>
    cases fuel with
    | zero => simp at h
    | succ n =>
      have hw := runeWidth_utf8Bytes c (cs.flatMap utf8Bytes)
      have hpos := utf8Bytes_length_pos c
      simp only [List.flatMap_cons]
      cases hb : utf8Bytes c with
      | nil => simp [hb] at hpos
      | cons b bs =>
        rw [hb] at hw
        simp only [List.cons_append] at hw ⊢
        simp only [validStringFrom, hw]
        have hd : List.drop (b :: bs).length (b :: (bs ++ cs.flatMap utf8Bytes))
            = cs.flatMap utf8Bytes := by
          rw [← List.cons_append, List.drop_left]
        rw [hd]
        exact ih n (by simpa using h)

theorem length_le_flatMap (cs : List Char) : cs.length ≤ (cs.flatMap utf8Bytes).length := by
  induction cs with
  | nil => simp
  | cons c cs ih =>
    have hpos := utf8Bytes_length_pos c
    simp only [List.flatMap_cons, List.length_append, List.length_cons]
    omega

/-- The UTF-8 bytes of a text are a valid string to `utf8.ValidString`. -/
theorem validString_bytes (s : String) : ValidString (bytes s) = true :=
  validStringFrom_flatMap s.toList _ (length_le_flatMap s.toList)

/-! ## The translation client: claims -/

/-- C3 fails for a body that is the JSON value `null`: `json.Unmarshal` stores
`null` into the slice without an error, so `translate` answers "translation not
found", which is no "JSON unmarshal error". -/
theorem translate_null_body :
    translate (fun _ => .ok ⟨200, .ok (.value .null)⟩) (bytes "hello") (bytes "en") (bytes "es")
      = .error (bytes "translation not found") ∧
    ¬ ∃ err, translate (fun _ => .ok ⟨200, .ok (.value .null)⟩)
        (bytes "hello") (bytes "en") (bytes "es")
      = .error (bytes "JSON unmarshal error: " ++ err) := by
  refine ⟨rfl, ?_⟩
  rintro ⟨err, h⟩
  have h2 : bytes "translation not found" = bytes "JSON unmarshal error: " ++ err :=
    Except.error.inj ((rfl : translate (fun _ => .ok ⟨200, .ok (.value .null)⟩)
      (bytes "hello") (bytes "en") (bytes "es")
        = .error (bytes "translation not found")).symm.trans h)
  exact ne_of_head (bytes "JSON unmarshal error: ") (bytes "translation not found") err 74 116
    rfl rfl (by decide) h2.symm

/-- C3, amended: on an HTTP 200 answer whose body was read, a body that is not
valid JSON, and a body whose outermost value is an object, a string, a number
or a boolean, make `translate` return a "JSON unmarshal error" (and not
"translation not found"); a body that is the JSON value `null` makes it return
"translation not found". -/
theorem translate_malformed (get : GoString → Except GoString Response)
    (text s t : GoString) (resp : Response) (doc : Document)
    (hget : get (translateURL text s t) = .ok resp)
    (hstatus : resp.StatusCode = 200)
    (hbody : resp.Body = .ok doc) :
    (∀ err, doc = .invalid err →
      translate get text s t = .error (bytes "JSON unmarshal error: " ++ err)) ∧
    (∀ j, doc = .value j → j ≠ .null → (∀ xs, j ≠ .arr xs) →
      (∃ err, translate get text s t = .error (bytes "JSON unmarshal error: " ++ err)) ∧
      translate get text s t ≠ .error (bytes "translation not found")) ∧
    (doc = .value .null →
      translate get text s t = .error (bytes "translation not found")) := by
  refine ⟨?_, ?_, ?_⟩
  · intro err hdoc
    subst hdoc
    simp [translate, hget, hstatus, hbody]
  · intro j hdoc hnull harr
    subst hdoc
    have key : ∃ err,
        translate get text s t = .error (bytes "JSON unmarshal error: " ++ err) := by
      cases j with
      | null => exact absurd rfl hnull
      | arr xs => exact absurd rfl (harr xs)
      | _ => exact ⟨_, by simp only [translate, hget, hstatus, hbody, unmarshalSlice]; rfl⟩
    refine ⟨key, ?_⟩
    obtain ⟨err, herr⟩ := key
    rw [herr]
    intro h
    exact ne_of_head (bytes "JSON unmarshal error: ") (bytes "translation not found") err 74 116
      rfl rfl (by decide) (Except.error.inj h)
  · intro hdoc
    subst hdoc
    simp only [translate, hget, hstatus, hbody, unmarshalSlice]
    rfl

/-- Witness of the amended C3: the body `{}` gives a "JSON unmarshal error". -/
theorem translate_malformed_witness :
    ∃ err, translate (fun _ => .ok ⟨200, .ok (.value (.obj []))⟩)
        (bytes "hello") (bytes "en") (bytes "es")
      = .error (bytes "JSON unmarshal error: " ++ err) :=
  ((translate_malformed (fun _ => .ok ⟨200, .ok (.value (.obj []))⟩)
    (bytes "hello") (bytes "en") (bytes "es")
    _ (.value (.obj [])) rfl rfl rfl).2.1 (.obj []) rfl (by simp) (by simp)).1

/-- C4: when the answer has a status code other than 200, `translate` returns
the error "unexpected status code: c" with the code in decimal, whatever the
body is or whether it can be read at all; when the status code is 200, no error
of that form is returned. -/
theorem translate_unexpected_status (get : GoString → Except GoString Response)
    (text s t : GoString) (resp : Response)
    (hget : get (translateURL text s t) = .ok resp) :
    (resp.StatusCode ≠ 200 →
      translate get text s t
        = .error (bytes "unexpected status code: " ++ bytes (toString resp.StatusCode))) ∧
    (resp.StatusCode = 200 →
      ∀ code : GoString,
        translate get text s t ≠ .error (bytes "unexpected status code: " ++ code)) := by
  refine ⟨?_, ?_⟩
  · intro hstatus
    simp [translate, hget, hstatus]
  · intro hstatus code h
    have hu : (bytes "unexpected status code: ").head? = some 117 := rfl
    simp only [translate, hget, hstatus, ne_eq, not_true_eq_false, if_false] at h
    rcases hb : resp.Body with err | doc
    · rw [hb] at h
      exact append_ne_of_head (bytes "reading response body error: ")
        (bytes "unexpected status code: ") err code 114 117 rfl hu (by decide)
        (Except.error.inj h)
    · rw [hb] at h
      cases doc with
      | invalid err =>
        exact append_ne_of_head (bytes "JSON unmarshal error: ")
          (bytes "unexpected status code: ") err code 74 117 rfl hu (by decide)
          (Except.error.inj h)
      | value j =>
        simp only at h
        rcases hs : unmarshalSlice j with err | result
        · rw [hs] at h
          exact append_ne_of_head (bytes "JSON unmarshal error: ")
            (bytes "unexpected status code: ") err code 74 117 rfl hu (by decide)
            (Except.error.inj h)
        · rw [hs] at h
          simp only at h
          split at h
          · exact (ne_of_head (bytes "unexpected status code: ")
              (bytes "translation not found") code 117 116 hu rfl (by decide))
              (Except.error.inj h).symm
          · cases h

/-- Witness of C4: status 429 with a body that would translate, and status 500
with a body that cannot be read. -/
theorem translate_unexpected_status_witness :
    translate (fun _ => .ok ⟨429, .ok (.value (.arr [.arr [.arr [.str (bytes "hola")]]]))⟩)
      (bytes "hello") (bytes "en") (bytes "es")
      = .error (bytes "unexpected status code: 429") ∧
    translate (fun _ => .ok ⟨500, .error (bytes "unexpected EOF")⟩)
      (bytes "hello") (bytes "en") (bytes "es")
      = .error (bytes "unexpected status code: 500") :=
  ⟨(translate_unexpected_status
      (fun _ => .ok ⟨429, .ok (.value (.arr [.arr [.arr [.str (bytes "hola")]]]))⟩)
      (bytes "hello") (bytes "en") (bytes "es") _ rfl).1 (by decide),
   (translate_unexpected_status (fun _ => .ok ⟨500, .error (bytes "unexpected EOF")⟩)
      (bytes "hello") (bytes "en") (bytes "es") _ rfl).1 (by decide)⟩

/-- The URL `translate` requests: the source and the target stand in it as
they are, the text is query-escaped. -/
theorem translateURL_eq (text s t : GoString) :
    translateURL text s t =
      bytes "https://translate.googleapis.com/translate_a/single?client=gtx&dt=t&sl=" ++ s
        ++ bytes "&tl=" ++ t ++ bytes "&q=" ++ QueryEscape text := rfl

/-- C5 at the source `en&q=x`: the requested URL carries the source unescaped,
so that it reads as two query parameters, where the documented URL has
`en%26q%3Dx`; the text, on the same line of the program, is escaped. -/
theorem translateURL_source_unescaped :
    translateURL (bytes "a b") (bytes "en&q=x") (bytes "fr") =
      bytes "https://translate.googleapis.com/translate_a/single?client=gtx&dt=t&sl=en&q=x&tl=fr&q=a+b" ∧
    documentedURL (bytes "a b") (bytes "en&q=x") (bytes "fr") =
      bytes "https://translate.googleapis.com/translate_a/single?client=gtx&dt=t&sl=en%26q%3Dx&tl=fr&q=a+b" ∧
    translateURL (bytes "a b") (bytes "en&q=x") (bytes "fr")
      ≠ documentedURL (bytes "a b") (bytes "en&q=x") (bytes "fr") := by
  decide

/-! ## The configuration store and the driver: claims -/

/-- C6 at the file `{"sourceLang":"fr"}`: `loadConfig` leaves the pair
`("fr", "")`, neither the default pair nor a pair stored under both keys. -/
theorem loadConfig_missing_key (st : State) :
    (loadConfig
      { st with config := some (.value (.obj [(bytes "sourceLang", .str (bytes "fr"))])) }
      ).sourceLang = bytes "fr" ∧
    (loadConfig
      { st with config := some (.value (.obj [(bytes "sourceLang", .str (bytes "fr"))])) }
      ).targetLang = bytes "" := by
  constructor <;> rfl

/-- C7 at `-s es hello` with the file `{"sourceLang":"en","targetLang":"fr"}`:
after `init` the pair is `("en", "fr")`, the value of `-s` is gone, and `main`
calls `translate` with `("hello", "en", "fr")`; over a network that fails with
the requested URL as its message, the program prints that URL, with `sl=en`. -/
theorem init_overwrites_flag :
    (init ⟨bytes "es", bytes "", false, false, [bytes "hello"]⟩
        (some (.value (configObject (bytes "en") (bytes "fr")))) .saved).sourceLang
      = bytes "en" ∧
    (init ⟨bytes "es", bytes "", false, false, [bytes "hello"]⟩
        (some (.value (configObject (bytes "en") (bytes "fr")))) .saved).targetLang
      = bytes "fr" ∧
    (∀ tr : GoString → GoString → GoString → Except GoString (List GoString),
      main tr (init ⟨bytes "es", bytes "", false, false, [bytes "hello"]⟩
          (some (.value (configObject (bytes "en") (bytes "fr")))) .saved)
        = report (init ⟨bytes "es", bytes "", false, false, [bytes "hello"]⟩
          (some (.value (configObject (bytes "en") (bytes "fr")))) .saved)
          (tr (bytes "hello") (bytes "en") (bytes "fr"))) ∧
    (run (fun url => .error url) ⟨bytes "es", bytes "", false, false, [bytes "hello"]⟩
        (some (.value (configObject (bytes "en") (bytes "fr")))) .saved).stdout
      = [bytes "Error: HTTP request error: https://translate.googleapis.com/translate_a/single?client=gtx&dt=t&sl=en&tl=fr&q=hello"] := by
  refine ⟨rfl, rfl, fun tr => rfl, by decide⟩

/-- C8 fails for a string that is not valid UTF-8: `saveConfig` of the
one-byte source `0xff` writes the replacement character U+FFFD for it, and
`loadConfig` reads back the three bytes `EF BF BD`, not the byte saved. -/
theorem save_load_invalid_utf8 :
    (loadConfig (saveConfig [0xff] (bytes "de") .saved
        ⟨[], [], false, false, [], none, []⟩)).sourceLang = [0xEF, 0xBF, 0xBD] ∧
    (loadConfig (saveConfig [0xff] (bytes "de") .saved
        ⟨[], [], false, false, [], none, []⟩)).sourceLang ≠ [0xff] := by
  decide

/-- C8, amended: for strings `s` and `t` that are valid UTF-8, a successful
`saveConfig s t` leaves in the file one JSON object with exactly the two keys
"sourceLang" and "targetLang", holding `s` and `t`; a `loadConfig` after it
leaves `(sourceLang, targetLang) = (s, t)`; and `loadConfig` without a config
file leaves `("en", "en")`. -/
theorem save_load_roundtrip (s t : GoString) (st : State)
    (hs : ValidString s = true) (ht : ValidString t = true) :
    (saveConfig s t .saved st).config
      = some (.value (.obj [(bytes "sourceLang", .str s), (bytes "targetLang", .str t)])) ∧
    (loadConfig (saveConfig s t .saved st)).sourceLang = s ∧
    (loadConfig (saveConfig s t .saved st)).targetLang = t ∧
    (loadConfig { st with config := none }).sourceLang = bytes "en" ∧
    (loadConfig { st with config := none }).targetLang = bytes "en" := by
  have hc : configObject s t
      = .obj [(bytes "sourceLang", .str s), (bytes "targetLang", .str t)] := by
    simp only [configObject, toValidUTF8_of_valid s hs, toValidUTF8_of_valid t ht]
  refine ⟨?_, ?_, ?_, rfl, rfl⟩
  · simp only [saveConfig, hc]
  · simp only [saveConfig, hc]
    rfl
  · simp only [saveConfig, hc]
    rfl

/-- Witness of the amended C8: `saveConfig("fr", "de")` followed by
`loadConfig` gives `("fr", "de")`. -/
theorem save_load_roundtrip_witness :
    (loadConfig (saveConfig (bytes "fr") (bytes "de") .saved
        ⟨[], [], false, false, [], none, []⟩)).sourceLang = bytes "fr" ∧
    (loadConfig (saveConfig (bytes "fr") (bytes "de") .saved
        ⟨[], [], false, false, [], none, []⟩)).targetLang = bytes "de" :=
  ⟨(save_load_roundtrip (bytes "fr") (bytes "de") ⟨[], [], false, false, [], none, []⟩
      (by decide) (by decide)).2.1,
   (save_load_roundtrip (bytes "fr") (bytes "de") ⟨[], [], false, false, [], none, []⟩
      (by decide) (by decide)).2.2.1⟩

/-- C9 fails in two ways, shown over a callee that answers with its own
arguments.  With `-set -reverse hello` over the file
`{"sourceLang":"en","targetLang":"fr"}`, `init` first saves the two empty flag
values and then loads them, and `translate` is called with an empty source and
an empty target, not with `("fr", "en")`.  With `-reverse hello` over the file
`{"sourceLang":"de","targetLang":"fr","n":1}`, which holds both keys, the
decoding into `map[string]string` fails on the number, `loadConfig` sets the
default pair, and `translate` is called with `("en", "en")`, not with
`("fr", "de")`. -/
theorem reverse_not_persisted_pair :
    (main (fun text source target => .ok [text, source, target])
      (init ⟨bytes "", bytes "", true, true, [bytes "hello"]⟩
        (some (.value (configObject (bytes "en") (bytes "fr")))) .saved)).stdout
      = [bytes "- hello", bytes "- ", bytes "- "] ∧
    (main (fun text source target => .ok [text, source, target])
      (init ⟨bytes "", bytes "", true, false, [bytes "hello"]⟩
        (some (.value (.obj [(bytes "sourceLang", .str (bytes "de")),
          (bytes "targetLang", .str (bytes "fr")), (bytes "n", .num (bytes "1") false)])))
        .saved)).stdout
      = [bytes "Error reading config: json: cannot unmarshal number into Go value of type string",
         bytes "- hello", bytes "- en", bytes "- en"] := by
  decide

/-- C9, amended: when the config file decodes without an error to a map that
holds `a` under "sourceLang" and `b` under "targetLang", and the command line
has no `-s`, no `-t` and no `-set` but at least one positional argument, `main`
calls `translate` with the positional arguments joined by single spaces and
with `(b, a)` under `-reverse`, with `(a, b)` without it. -/
theorem reverse_swaps_persisted_pair (cl : CommandLine) (file : Json) (config : StringMap)
    (a b : GoString) (fs : SaveOutcome)
    (tr : GoString → GoString → GoString → Except GoString (List GoString))
    (hs : cl.s = bytes "") (ht : cl.t = bytes "") (hset : cl.set = false)
    (hargs : cl.args ≠ [])
    (hfile : unmarshalStringMap file = .ok config)
    (ha : config.lookup (bytes "sourceLang") = some a)
    (hb : config.lookup (bytes "targetLang") = some b) :
    main tr (init cl (some (.value file)) fs) =
      report { (init cl (some (.value file)) fs) with
          sourceLang := if cl.reverse then b else a,
          targetLang := if cl.reverse then a else b }
        (tr ((bytes " ").intercalate cl.args)
          (if cl.reverse then b else a) (if cl.reverse then a else b)) := by
  obtain ⟨s, t, rev, set, args⟩ := cl
  simp only at hs ht hset hargs
  subst hs ht hset
  have hlen : ¬ args.length < 1 := by
    cases args with
    | nil => exact absurd rfl hargs
    | cons x xs => simp
  have hinit : init ⟨bytes "", bytes "", rev, false, args⟩ (some (.value file)) fs
      = { sourceLang := a, targetLang := b, reverse := rev, setLang := false,
          args := args, config := some (.value file), stdout := [] } := by
    simp [init, loadConfig, hfile, StringMap.index, ha, hb]
  rw [hinit]
  cases rev <;> simp [main, hlen]

/-- Witness of the amended C9: the persisted pair `("en", "fr")` with
`-reverse` and the arguments `good morning`, over a callee that answers with
its own arguments, prints the text `good morning`, the source `fr` and the
target `en`. -/
theorem reverse_swaps_persisted_pair_witness :
    (main (fun text source target => .ok [text, source, target])
      (init ⟨bytes "", bytes "", true, false, [bytes "good", bytes "morning"]⟩
        (some (.value (configObject (bytes "en") (bytes "fr")))) .saved)).stdout
      = [bytes "- good morning", bytes "- fr", bytes "- en"] :=
  (congrArg State.stdout
    (reverse_swaps_persisted_pair ⟨bytes "", bytes "", true, false, [bytes "good", bytes "morning"]⟩
      (configObject (bytes "en") (bytes "fr"))
      [(bytes "targetLang", bytes "fr"), (bytes "sourceLang", bytes "en")]
      (bytes "en") (bytes "fr") .saved
      (fun text source target => .ok [text, source, target])
      rfl rfl rfl (by simp) rfl rfl rfl)).trans
    (by decide)

/-- C10 at `-set hello` with neither `-s` nor `-t`: `saveConfig` stores two
empty strings, `loadConfig` reads them back, and `main` calls `translate` with
an empty source and an empty target; likewise `-s fr hello` over a config file
`{"sourceLang":"fr"}` calls it with an empty target; over a network that fails
with the requested URL as its message, the first run prints a URL with
`sl=&tl=`. -/
theorem translate_called_with_empty_language :
    (∀ tr : GoString → GoString → GoString → Except GoString (List GoString),
      main tr (init ⟨bytes "", bytes "", false, true, [bytes "hello"]⟩ none .saved)
        = report (init ⟨bytes "", bytes "", false, true, [bytes "hello"]⟩ none .saved)
          (tr (bytes "hello") (bytes "") (bytes ""))) ∧
    (∀ tr : GoString → GoString → GoString → Except GoString (List GoString),
      main tr (init ⟨bytes "fr", bytes "", false, false, [bytes "hello"]⟩
          (some (.value (.obj [(bytes "sourceLang", .str (bytes "fr"))]))) .saved)
        = report (init ⟨bytes "fr", bytes "", false, false, [bytes "hello"]⟩
          (some (.value (.obj [(bytes "sourceLang", .str (bytes "fr"))]))) .saved)
          (tr (bytes "hello") (bytes "fr") (bytes ""))) ∧
    (run (fun url => .error url) ⟨bytes "", bytes "", false, true, [bytes "hello"]⟩
        none .saved).stdout
      = [bytes "Error: HTTP request error: https://translate.googleapis.com/translate_a/single?client=gtx&dt=t&sl=&tl=&q=hello"] :=
  ⟨fun _ => rfl, fun _ => rfl, by decide⟩

end Translator
